import Mathlib

/-!
Shallow embedding of the benchmark-comparison scripts
`scripts/gensummary.py` and `scripts/gengraph.py`.

Conventions of the embedding:
- Python numbers on these code paths are integers (JSON integer fields and
  their sums/differences), embedded as `Int`.
- Fallible Python code (indexing that can raise `IndexError`, `assert`
  statements, the pandas `DataFrame` shape check on a non-empty data list)
  is embedded in `Option`: `none` is an uncaught exception terminating the
  process.
- `sorted(xs)` (Timsort: stable, ascending) is embedded as
  `List.insertionSort` with the `≤` relation, which is also stable and
  ascending; a stable ascending sort is unique, so the two agree on every
  input.
- The `print` calls of the scripts are embedded by accumulating the printed lines
  in a list: each `print(s)` contributes the line `s`, a bare `print()`
  contributes the empty line `""`.
-/

/-- One run record, from the `RunData` TypedDict shared by both scripts. -/
structure RunData where
  title : String
  author : String
  puzzle : String
  guesses : Int
  solveElapsedTimeMs : Int
  createElapsedTimeMs : Int
deriving DecidableEq, Repr

/-- Source: `PuzzleData = tuple[list[RunData], list[RunData]]`: base runs, head runs. -/
abbrev PuzzleData := List RunData × List RunData

/-- Base runs of a puzzle (`puzzle[0]`). -/
def PuzzleData.base (p : PuzzleData) : List RunData := p.1

/-- Head runs of a puzzle (`puzzle[1]`). -/
def PuzzleData.head (p : PuzzleData) : List RunData := p.2

/-- Source: `median(xs) = sorted(xs)[(len(xs) - 1) // 2]` (identical in
`gensummary.py` and `gengraph.py`); the indexing raises on an empty list,
hence `Option`. -/
def median (xs : List Int) : Option Int :=
  (List.insertionSort (fun a b => a ≤ b) xs)[(xs.length - 1) / 2]?

/-- Source: `time(run) = run["solveElapsedTimeMs"] + run["createElapsedTimeMs"]`. -/
def time (run : RunData) : Int :=
  run.solveElapsedTimeMs + run.createElapsedTimeMs

/-- Source: `median_guesses(runs) = median([run["guesses"] for run in runs])`. -/
def median_guesses (runs : List RunData) : Option Int :=
  median (runs.map (fun run => run.guesses))

/-- Source: `median_time(runs) = median([time(run) for run in runs])`. -/
def median_time (runs : List RunData) : Option Int :=
  median (runs.map time)

/-- Source: `puzzle_title(puzzle) = puzzle[0][0]["title"]`; raises if the base run
list is empty. -/
def puzzle_title (puzzle : PuzzleData) : Option String :=
  puzzle.base.head?.map (fun run => run.title)

/-- Source: `puzzle_author(puzzle) = puzzle[0][0]["author"]`; raises if the base run
list is empty. -/
def puzzle_author (puzzle : PuzzleData) : Option String :=
  puzzle.base.head?.map (fun run => run.author)

/-- The f-string
`[<title> by <author>](http://localhost:8080/?load=<puzzle[0][0]["puzzle"]>)`
built from `puzzle_title`, `puzzle_author` and the `puzzle` field of the
first base run. -/
def puzzle_localhost_link (puzzle : PuzzleData) : Option String := do
  let t ← puzzle_title puzzle
  let a ← puzzle_author puzzle
  let pz ← puzzle.base.head?.map (fun run => run.puzzle)
  pure ("[" ++ t ++ " by " ++ a ++ "](http://localhost:8080/?load=" ++ pz ++ ")")

/-- Source: `guesses_delta(puzzle) = median_guesses(puzzle[1]) - median_guesses(puzzle[0])`. -/
def guesses_delta (puzzle : PuzzleData) : Option Int := do
  let mh ← median_guesses puzzle.head
  let mb ← median_guesses puzzle.base
  pure (mh - mb)

/-- Source: `time_delta(puzzle) = median_time(puzzle[1]) - median_time(puzzle[0])`. -/
def time_delta (puzzle : PuzzleData) : Option Int := do
  let mh ← median_time puzzle.head
  let mb ← median_time puzzle.base
  pure (mh - mb)

/-- Python `sep.join(parts)`. -/
def pyJoin (sep : String) : List String → String
  | [] => ""
  | [c] => c
  | c :: c2 :: cs => c ++ sep ++ pyJoin sep (c2 :: cs)

/-- One pipe-delimited table line: `"|" + "|".join(cells) + "|"`. -/
def mkRow (cells : List String) : String :=
  "|" ++ pyJoin "|" cells ++ "|"

/-- Source: `print_table_in_markdown(headings, data)`: asserts `data` non-empty and
`len(headings) == len(data[0])` (embedded as `none` on failure), then prints
the header line, the dash separator line, one line per row, and a final
bare `print()` (the empty line). Returns the printed lines. -/
def print_table_in_markdown (headings : List String) (data : List (List String)) :
    Option (List String) :=
  match data with
  | [] => none
  | row0 :: _ =>
    if headings.length = row0.length then
      some ([mkRow headings, mkRow (List.replicate headings.length "-")]
        ++ data.map mkRow ++ [""])
    else
      none

/-- Python list comprehension `[f(a) for a in l]` where each `f(a)` may
raise: the whole comprehension raises if any element does. -/
def mapComp (f : α → Option β) : List α → Option (List β)
  | [] => some []
  | a :: as => do
    let b ← f a
    let bs ← mapComp f as
    pure (b :: bs)

/-- Python list comprehension `[a for a in l if p(a)]` where the condition
may raise. -/
def filterComp (p : α → Option Bool) : List α → Option (List α)
  | [] => some []
  | a :: as => do
    let b ← p a
    let rest ← filterComp p as
    pure (if b then a :: rest else rest)

/-- Python `sorted(l, key=key)`: computes the key of each element (raising
if any key computation raises), then sorts stably ascending by key
(decorate, stable-sort, undecorate). -/
def sortByKey (key : α → Option Int) (l : List α) : Option (List α) := do
  let keyed ← mapComp (fun a => (key a).map (fun d => (a, d))) l
  pure ((List.insertionSort (fun x y => x.2 ≤ y.2) keyed).map Prod.fst)

/-- Source: `by_guesses = sorted(data, key=guesses_delta)`. -/
def by_guesses (data : List PuzzleData) : Option (List PuzzleData) :=
  sortByKey guesses_delta data

/-- Source: `by_time = sorted(data, key=time_delta)`. -/
def by_time (data : List PuzzleData) : Option (List PuzzleData) :=
  sortByKey time_delta data

/-- Source: `best_guesses = [p for p in by_guesses[:3] if guesses_delta(p) < 0]`. -/
def best_guesses (data : List PuzzleData) : Option (List PuzzleData) := do
  let bg ← by_guesses data
  filterComp (fun p => (guesses_delta p).map (fun d => decide (d < 0))) (bg.take 3)

/-- Source: `worst_guesses = [p for p in by_guesses[-3:] if guesses_delta(p) > 0]`
followed by `worst_guesses.reverse()`. -/
def worst_guesses (data : List PuzzleData) : Option (List PuzzleData) := do
  let bg ← by_guesses data
  let w ← filterComp (fun p => (guesses_delta p).map (fun d => decide (0 < d)))
    (bg.drop (bg.length - 3))
  pure w.reverse

/-- Source: `best_time = [p for p in by_time[:3] if time_delta(p) < 0]`. -/
def best_time (data : List PuzzleData) : Option (List PuzzleData) := do
  let bt ← by_time data
  filterComp (fun p => (time_delta p).map (fun d => decide (d < 0))) (bt.take 3)

/-- Source: `worst_time = [p for p in by_time[-3:] if time_delta(p) > 0]` followed
by `worst_time.reverse()`. -/
def worst_time (data : List PuzzleData) : Option (List PuzzleData) := do
  let bt ← by_time data
  let w ← filterComp (fun p => (time_delta p).map (fun d => decide (0 < d)))
    (bt.drop (bt.length - 3))
  pure w.reverse

/-- Headings of the two guesses tables. -/
def guessesHeadings : List String :=
  ["localhost puzzle link", "Median base guesses", "Median head guesses",
    "Guesses delta"]

/-- Headings of the two time tables. -/
def timeHeadings : List String :=
  ["localhost puzzle link", "Median base time", "Median head time",
    "Time delta"]

/-- The cell row built for one puzzle of a guesses table:
`[puzzle_localhost_link(p), str(median_guesses(p[0])), str(median_guesses(p[1])), str(guesses_delta(p))]`. -/
def guessesRow (p : PuzzleData) : Option (List String) := do
  let link ← puzzle_localhost_link p
  let mb ← median_guesses p.base
  let mh ← median_guesses p.head
  let d ← guesses_delta p
  pure [link, toString mb, toString mh, toString d]

/-- The cell row built for one puzzle of a time table. -/
def timeRow (p : PuzzleData) : Option (List String) := do
  let link ← puzzle_localhost_link p
  let mb ← median_time p.base
  let mh ← median_time p.head
  let d ← time_delta p
  pure [link, toString mb, toString mh, toString d]

/-- One category section of the script: if the selection is empty, print
the given message; otherwise print the given caption, a blank line, and
the markdown table built from the rows of the selection. -/
def categorySection (selection : List PuzzleData) (emptyMsg caption : String)
    (headings : List String) (row : PuzzleData → Option (List String)) :
    Option (List String) :=
  if selection = [] then
    some [emptyMsg]
  else do
    let rows ← mapComp row selection
    let table ← print_table_in_markdown headings rows
    pure ([caption, ""] ++ table)

/-- All lines printed by `gensummary.py` on input `data`, in order:
the `## Guesses summary` header, the best-guesses section, the
worst-guesses section, the `## Time summary` header, the best-time and
worst-time sections. `none` models an uncaught exception. -/
def gensummary_output (data : List PuzzleData) : Option (List String) := do
  let bg ← best_guesses data
  let s1 ← categorySection bg "**No puzzles decreased in guesses.**"
    "Biggest decrease in guesses:" guessesHeadings guessesRow
  let wg ← worst_guesses data
  let s2 ← categorySection wg "**No puzzles increased in guesses.**"
    "Biggest increase in guesses:" guessesHeadings guessesRow
  let bt ← best_time data
  let s3 ← categorySection bt "**No puzzles decreased in time.**"
    "Biggest decrease in time:" timeHeadings timeRow
  let wt ← worst_time data
  let s4 ← categorySection wt "**No puzzles increased in time.**"
    "Biggest increase in time:" timeHeadings timeRow
  pure (["## Guesses summary"] ++ s1 ++ s2 ++ ["## Time summary"] ++ s3 ++ s4)

/-- The generator `(mapper(run) for puzzle in data for run in puzzle[0])`
in `gengraph.py`: all base-run measurements, in stream order. -/
def baseStream (mapper : RunData → Int) (data : List PuzzleData) : List Int :=
  (data.map (fun p => p.base.map mapper)).flatten

/-- The generator `(mapper(run) for puzzle in data for run in puzzle[1])`:
all head-run measurements, in stream order. -/
def headStream (mapper : RunData → Int) (data : List PuzzleData) : List Int :=
  (data.map (fun p => p.head.map mapper)).flatten

/-- The pandas `DataFrame` built by `gengraph.py`, reduced to what the
scripts use: the list of (base, head) cell rows and the index labels. A
cell is `Option Int`: `some v` is a numeric value, `none` is pandas NaN
(which appears when the frame is built from an empty data list). -/
structure CompareFrame where
  rows : List (Option Int × Option Int)
  index : List Int
deriving DecidableEq, Repr

/-- Source: `compare_data = pd.DataFrame(list(zip(baseStream, headStream)), index, ["base", "head"])`
where `index = [median(mapper(run) for run in puzzle[0]) for puzzle in data for run in puzzle[0]]`.
The inner `median` call is evaluated once per base run (so never on an
empty list). The `DataFrame` constructor special-cases an empty data
list: it then builds a NaN-filled frame with one row per index entry;
on a non-empty data list it raises a shape error when the number of data
rows differs from the length of the index. -/
def compare_data (mapper : RunData → Int) (data : List PuzzleData) :
    Option CompareFrame := do
  let rows := (baseStream mapper data).zip (headStream mapper data)
  let index ← mapComp median
    ((data.map (fun p => p.base.map (fun _ => p.base.map mapper))).flatten)
  if rows = [] then
    pure (CompareFrame.mk (index.map (fun _ => (none, none))) index)
  else if rows.length = index.length then
    pure (CompareFrame.mk (rows.map (fun r => (some r.1, some r.2))) index)
  else
    none

/-- Modelled from the spec: the per-puzzle-median variant of the graph
tool is not in `src/` (only the per-run `gengraph.py` is); spec section 4.6
says the scatter data is given "by puzzle or by individual run, depending on
variant", so this variant has one (base-median, head-median) row per
puzzle. -/
def compare_data_by_puzzle (mapper : RunData → Int) (data : List PuzzleData) :
    Option (List (Int × Int)) :=
  mapComp (fun p => do
    let b ← median (p.base.map mapper)
    let h ← median (p.head.map mapper)
    pure (b, h)) data

/-- Number of pipe characters in a string. -/
def pipeCount (s : String) : Nat :=
  s.toList.count '|'

/-- Statement-side shorthand: the guesses delta of a puzzle whose two run
lists are non-empty (`0` is never used: every claim using this assumes
well-formedness, under which `guesses_delta` returns a value). -/
def gDeltaD (p : PuzzleData) : Int :=
  (guesses_delta p).getD 0

/-- Statement-side shorthand for `time_delta`, as `gDeltaD`. -/
def tDeltaD (p : PuzzleData) : Int :=
  (time_delta p).getD 0

/-- Statement-side shorthand: the localhost link of a puzzle with at least
one base run (the default is never used under that assumption). -/
def linkD (p : PuzzleData) : String :=
  (puzzle_localhost_link p).getD ""

/-- Statement-side shorthand: the guesses-table cell row of a well-formed
puzzle. -/
def guessesRowD (p : PuzzleData) : List String :=
  [linkD p, toString ((median_guesses p.base).getD 0),
    toString ((median_guesses p.head).getD 0), toString (gDeltaD p)]

/-- Statement-side shorthand: the time-table cell row of a well-formed
puzzle. -/
def timeRowD (p : PuzzleData) : List String :=
  [linkD p, toString ((median_time p.base).getD 0),
    toString ((median_time p.head).getD 0), toString (tDeltaD p)]

/-- The implicit input invariant of the scripts (spec section 3): every puzzle
has non-empty base and head run lists. -/
def wellformed (data : List PuzzleData) : Prop :=
  ∀ p ∈ data, p.base ≠ [] ∧ p.head ≠ []

instance : DecidablePred wellformed := fun data =>
  inferInstanceAs (Decidable (∀ p ∈ data, p.base ≠ [] ∧ p.head ≠ []))

/-- A concrete run record used by witnesses. -/
def sampleRun (g s c : Int) : RunData :=
  RunData.mk "t" "a" "z" g s c

/-- A concrete well-formed input used by witnesses: puzzle 1 improves in
guesses (delta -2) with unchanged time, puzzle 2 regresses in guesses
(delta 3) and in time (delta 100). -/
def sampleData : List PuzzleData :=
  [([sampleRun 5 10 20], [sampleRun 3 10 20]),
    ([sampleRun 1 0 0], [sampleRun 4 50 50])]

section MedianLemmas

lemma insertionSort_int_sorted (xs : List Int) :
    List.Pairwise (fun a b : Int => a ≤ b) (List.insertionSort (fun a b => a ≤ b) xs) :=
  List.sorted_insertionSort _ xs

lemma median_eq_of_sorted (xs s : List Int) (hperm : s.Perm xs)
    (hsort : s.Pairwise (fun a b => a ≤ b)) :
    median xs = s[(xs.length - 1) / 2]? := by
  have heq : List.insertionSort (fun a b : Int => a ≤ b) xs = s :=
    List.eq_of_perm_of_sorted ((List.perm_insertionSort _ xs).trans hperm.symm)
      (insertionSort_int_sorted xs) hsort
  rw [median, heq]

lemma median_length_sort (xs : List Int) :
    (List.insertionSort (fun a b : Int => a ≤ b) xs).length = xs.length :=
  (List.perm_insertionSort _ xs).length_eq

lemma median_none_iff (xs : List Int) : median xs = none ↔ xs = [] := by
  rw [median, List.getElem?_eq_none_iff, median_length_sort,
    ← List.length_eq_zero]
  omega

lemma median_isSome (xs : List Int) (h : xs ≠ []) : ∃ v, median xs = some v := by
  rcases hv : median xs with _ | v
  · exact absurd ((median_none_iff xs).mp hv) h
  · exact ⟨v, rfl⟩

lemma median_guesses_isSome (runs : List RunData) (h : runs ≠ []) :
    ∃ v, median_guesses runs = some v :=
  median_isSome _ (by simpa using h)

lemma median_time_isSome (runs : List RunData) (h : runs ≠ []) :
    ∃ v, median_time runs = some v :=
  median_isSome _ (by simpa using h)

end MedianLemmas

/-- C1: for every non-empty list of numbers, `median` returns the element at
index `(len - 1) / 2` of the ascending sort of its input (the lower
median); in particular `median [x] = x`, `median [a, b] = a` for `a < b`,
and the result is invariant under permutation of the input. -/
theorem median_lower_median_claim (xs ys s : List Int) (hne : xs ≠ []) :
    (s.Perm xs → s.Pairwise (fun a b => a ≤ b) →
      median xs = s[(xs.length - 1) / 2]?) ∧
    (∀ x : Int, median [x] = some x) ∧
    (∀ a b : Int, a < b → median [a, b] = some a) ∧
    (xs.Perm ys → median xs = median ys) := by
  refine ⟨fun hp hs => median_eq_of_sorted xs s hp hs, ?_, ?_, ?_⟩
  · intro x
    simp [median, List.insertionSort, List.orderedInsert]
  · intro a b hab
    simp [median, List.insertionSort, List.orderedInsert, hab.le]
  · intro hp
    have hs := insertionSort_int_sorted ys
    have hq : (List.insertionSort (fun a b : Int => a ≤ b) ys).Perm xs :=
      (List.perm_insertionSort _ ys).trans hp.symm
    rw [median_eq_of_sorted xs _ hq hs, median, hp.length_eq]

/-- Witness for C1 at `xs = [3, 1]`, `ys = [1, 3]`, `s = [1, 3]`. -/
theorem median_lower_median_claim_witness :
    median [3, 1] = [1, 3][(([3, 1] : List Int).length - 1) / 2]? ∧
    median [7] = some 7 ∧
    median [2, 5] = some 2 ∧
    median [3, 1] = median [1, 3] := by
  have h := median_lower_median_claim [3, 1] [1, 3] [1, 3] (by decide)
  exact ⟨h.1 (by decide) (by decide), h.2.1 7, h.2.2.1 2 5 (by decide),
    h.2.2.2 (by decide)⟩

/-- C6: `median` fails exactly on the empty list, and `median_guesses` /
`median_time` fail exactly on an empty run list. -/
theorem median_empty_fails_claim (xs : List Int) (runs1 runs2 : List RunData) :
    median ([] : List Int) = none ∧
    (median xs = none ↔ xs = []) ∧
    (median_guesses runs1 = none ↔ runs1 = []) ∧
    (median_time runs2 = none ↔ runs2 = []) := by
  refine ⟨by decide, median_none_iff xs, ?_, ?_⟩
  · rw [median_guesses, median_none_iff]
    simp
  · rw [median_time, median_none_iff]
    simp

/-- C3: on a puzzle whose run lists are both non-empty, `guesses_delta` is
the median head guesses minus the median base guesses, `time_delta` is the
median head time minus the median base time, and swapping base and head
negates each delta. -/
theorem delta_median_difference_claim (b h : List RunData)
    (hb : b ≠ []) (hh : h ≠ []) :
    (∃ mb mh, median_guesses b = some mb ∧ median_guesses h = some mh ∧
      guesses_delta (b, h) = some (mh - mb) ∧
      guesses_delta (h, b) = some (-(mh - mb))) ∧
    (∃ tb th, median_time b = some tb ∧ median_time h = some th ∧
      time_delta (b, h) = some (th - tb) ∧
      time_delta (h, b) = some (-(th - tb))) := by
  obtain ⟨mb, hmb⟩ := median_guesses_isSome b hb
  obtain ⟨mh, hmh⟩ := median_guesses_isSome h hh
  obtain ⟨tb, htb⟩ := median_time_isSome b hb
  obtain ⟨th, hth⟩ := median_time_isSome h hh
  refine ⟨⟨mb, mh, hmb, hmh, ?_, ?_⟩, ⟨tb, th, htb, hth, ?_, ?_⟩⟩
  · simp [guesses_delta, PuzzleData.base, PuzzleData.head, hmb, hmh]
  · simp [guesses_delta, PuzzleData.base, PuzzleData.head, hmb, hmh]
  · simp [time_delta, PuzzleData.base, PuzzleData.head, htb, hth]
  · simp [time_delta, PuzzleData.base, PuzzleData.head, htb, hth]

/-- Witness for C3 at a one-run base (guesses 5) and one-run head
(guesses 3). -/
theorem delta_median_difference_claim_witness :
    (∃ mb mh,
      median_guesses [RunData.mk "t" "a" "z" 5 10 20] = some mb ∧
      median_guesses [RunData.mk "t" "a" "z" 3 10 20] = some mh ∧
      guesses_delta ([RunData.mk "t" "a" "z" 5 10 20],
        [RunData.mk "t" "a" "z" 3 10 20]) = some (mh - mb) ∧
      guesses_delta ([RunData.mk "t" "a" "z" 3 10 20],
        [RunData.mk "t" "a" "z" 5 10 20]) = some (-(mh - mb))) ∧
    (∃ tb th,
      median_time [RunData.mk "t" "a" "z" 5 10 20] = some tb ∧
      median_time [RunData.mk "t" "a" "z" 3 10 20] = some th ∧
      time_delta ([RunData.mk "t" "a" "z" 5 10 20],
        [RunData.mk "t" "a" "z" 3 10 20]) = some (th - tb) ∧
      time_delta ([RunData.mk "t" "a" "z" 3 10 20],
        [RunData.mk "t" "a" "z" 5 10 20]) = some (-(th - tb))) :=
  delta_median_difference_claim _ _ (by decide) (by decide)

/-- C10: the title, author and localhost link of a puzzle are computed only
from its first base run; they ignore the head run list entirely, and they
fail when the base run list is empty even if head runs exist. -/
theorem puzzle_accessors_claim (r : RunData) (rest b hd hd' : List RunData) :
    puzzle_title (r :: rest, hd) = some r.title ∧
    puzzle_author (r :: rest, hd) = some r.author ∧
    puzzle_localhost_link (r :: rest, hd) =
      some ("[" ++ r.title ++ " by " ++ r.author ++
        "](http://localhost:8080/?load=" ++ r.puzzle ++ ")") ∧
    puzzle_title (b, hd) = puzzle_title (b, hd') ∧
    puzzle_author (b, hd) = puzzle_author (b, hd') ∧
    puzzle_localhost_link (b, hd) = puzzle_localhost_link (b, hd') ∧
    puzzle_title ([], hd) = none ∧
    puzzle_author ([], hd) = none ∧
    puzzle_localhost_link ([], hd) = none :=
  ⟨rfl, rfl, rfl, rfl, rfl, rfl, rfl, rfl, rfl⟩

/-- C7: the end-to-end example of the spec. One puzzle, one base run with
guesses 5, one head run with guesses 3: the guesses delta is `-2`, the
puzzle is selected into the most-improved-guesses table, and its rendered
row has delta cell `"-2"` (shown both as the cell list and as the printed
table line). -/
theorem end_to_end_example_claim :
    guesses_delta ([RunData.mk "t" "a" "z" 5 10 20],
      [RunData.mk "t" "a" "z" 3 10 20]) = some (-2) ∧
    best_guesses [([RunData.mk "t" "a" "z" 5 10 20],
      [RunData.mk "t" "a" "z" 3 10 20])] =
      some [([RunData.mk "t" "a" "z" 5 10 20],
        [RunData.mk "t" "a" "z" 3 10 20])] ∧
    guessesRow ([RunData.mk "t" "a" "z" 5 10 20],
      [RunData.mk "t" "a" "z" 3 10 20]) =
      some ["[t by a](http://localhost:8080/?load=z)", "5", "3", "-2"] ∧
    ∃ lines,
      gensummary_output [([RunData.mk "t" "a" "z" 5 10 20],
        [RunData.mk "t" "a" "z" 3 10 20])] = some lines ∧
      "|[t by a](http://localhost:8080/?load=z)|5|3|-2|" ∈ lines := by
  refine ⟨by decide, by decide, by decide,
    ["## Guesses summary", "Biggest decrease in guesses:", "",
      "|localhost puzzle link|Median base guesses|Median head guesses|Guesses delta|",
      "|-|-|-|-|",
      "|[t by a](http://localhost:8080/?load=z)|5|3|-2|", "",
      "**No puzzles increased in guesses.**", "## Time summary",
      "**No puzzles decreased in time.**",
      "**No puzzles increased in time.**"], by decide, by decide⟩

section PipelineLemmas

variable {α : Type} {β : Type}

lemma mapComp_eq_map (f : α → Option β) (g : α → β) (l : List α)
    (h : ∀ a ∈ l, f a = some (g a)) : mapComp f l = some (l.map g) := by
  induction l with
  | nil => rfl
  | cons a as ih =>
    have ha := h a (List.mem_cons_self a as)
    have has := ih (fun x hx => h x (List.mem_cons_of_mem _ hx))
    simp [mapComp, ha, has]

lemma mapComp_isSome (f : α → Option β) (l : List α)
    (h : ∀ a ∈ l, ∃ b, f a = some b) :
    ∃ r, mapComp f l = some r ∧ r.length = l.length := by
  induction l with
  | nil => exact ⟨[], rfl, rfl⟩
  | cons a as ih =>
    obtain ⟨b, hb⟩ := h a (List.mem_cons_self a as)
    obtain ⟨r, hr, hlen⟩ := ih (fun x hx => h x (List.mem_cons_of_mem _ hx))
    exact ⟨b :: r, by simp [mapComp, hb, hr], by simp [hlen]⟩

lemma filterComp_eq_filter (p : α → Option Bool) (q : α → Bool) (l : List α)
    (h : ∀ a ∈ l, p a = some (q a)) : filterComp p l = some (l.filter q) := by
  induction l with
  | nil => rfl
  | cons a as ih =>
    have ha := h a (List.mem_cons_self a as)
    have has := ih (fun x hx => h x (List.mem_cons_of_mem _ hx))
    by_cases hq : q a <;> simp [filterComp, ha, has, List.filter_cons, hq]

lemma filter_map_fst (g : α → Int) (v : Int) (l : List (α × Int))
    (hsnd : ∀ x ∈ l, x.2 = g x.1) :
    (l.map Prod.fst).filter (fun a => decide (g a = v)) =
      (l.filter (fun x => decide (x.2 = v))).map Prod.fst := by
  induction l with
  | nil => rfl
  | cons x xs ih =>
    have hx := hsnd x (List.mem_cons_self x xs)
    have hxs := ih (fun y hy => hsnd y (List.mem_cons_of_mem _ hy))
    by_cases hv : g x.1 = v
    · simp [List.filter_cons, hx, hv, hxs]
    · simp [List.filter_cons, hx, hv, hxs]

lemma sortByKey_spec (key : α → Option Int) (g : α → Int) (l : List α)
    (hkey : ∀ a ∈ l, key a = some (g a)) :
    ∃ s, sortByKey key l = some s ∧ s.Perm l ∧
      s.Pairwise (fun a b => g a ≤ g b) ∧
      ∀ v : Int, s.filter (fun a => decide (g a = v)) =
        l.filter (fun a => decide (g a = v)) := by
  have h1 : mapComp (fun a => (key a).map (fun d => (a, d))) l =
      some (l.map (fun a => (a, g a))) :=
    mapComp_eq_map _ _ _ (fun a ha => by rw [hkey a ha]; rfl)
  have h2 : (l.map (fun a => (a, g a))).map Prod.fst = l := by
    rw [List.map_map]
    show List.map id l = l
    exact List.map_id l
  have hperm_sk :
      (List.insertionSort (fun x y : α × Int => x.2 ≤ y.2)
        (l.map (fun a => (a, g a)))).Perm (l.map (fun a => (a, g a))) :=
    List.perm_insertionSort _ _
  have hsnd_keyed : ∀ x ∈ l.map (fun a => (a, g a)), x.2 = g x.1 := by
    intro x hx
    obtain ⟨a, _, rfl⟩ := List.mem_map.mp hx
    rfl
  have hsnd_sk : ∀ x ∈ List.insertionSort (fun x y : α × Int => x.2 ≤ y.2)
      (l.map (fun a => (a, g a))), x.2 = g x.1 :=
    fun x hx => hsnd_keyed x (hperm_sk.subset hx)
  refine ⟨_, by simp [sortByKey, h1], h2 ▸ hperm_sk.map Prod.fst, ?_, ?_⟩
  · haveI : IsTotal (α × Int) (fun x y => x.2 ≤ y.2) :=
      ⟨fun a b => le_total a.2 b.2⟩
    haveI : IsTrans (α × Int) (fun x y => x.2 ≤ y.2) :=
      ⟨fun _ _ _ hab hbc => le_trans hab hbc⟩
    have hps := List.sorted_insertionSort (fun x y : α × Int => x.2 ≤ y.2)
      (l.map (fun a => (a, g a)))
    rw [List.pairwise_map]
    exact List.Pairwise.imp_of_mem
      (fun hx hy hr => by rw [← hsnd_sk _ hx, ← hsnd_sk _ hy]; exact hr) hps
  · intro v
    have hcpw : ((l.map (fun a => (a, g a))).filter
        (fun x => decide (x.2 = v))).Pairwise (fun x y : α × Int => x.2 ≤ y.2) := by
      refine List.pairwise_of_forall_mem_list (fun a ha b hb => ?_)
      have h3 := of_decide_eq_true (List.mem_filter.mp ha).2
      have h4 := of_decide_eq_true (List.mem_filter.mp hb).2
      rw [h3, h4]
    have hsub : ((l.map (fun a => (a, g a))).filter
        (fun x => decide (x.2 = v))).Sublist
        (List.insertionSort (fun x y : α × Int => x.2 ≤ y.2)
          (l.map (fun a => (a, g a)))) :=
      List.sublist_insertionSort hcpw (List.filter_sublist _)
    have h5 := hsub.filter (fun x => decide (x.2 = v))
    rw [List.filter_filter] at h5
    simp only [Bool.and_self] at h5
    have hperm_f := hperm_sk.filter (fun x => decide (x.2 = v))
    have heq : (List.insertionSort (fun x y : α × Int => x.2 ≤ y.2)
        (l.map (fun a => (a, g a)))).filter (fun x => decide (x.2 = v)) =
        (l.map (fun a => (a, g a))).filter (fun x => decide (x.2 = v)) :=
      (h5.eq_of_length hperm_f.length_eq.symm).symm
    have h6 : l.filter (fun a => decide (g a = v)) =
        ((l.map (fun a => (a, g a))).filter
          (fun x => decide (x.2 = v))).map Prod.fst := by
      conv_lhs => rw [← h2]
      exact filter_map_fst g v _ hsnd_keyed
    rw [filter_map_fst g v _ hsnd_sk, heq, h6]

end PipelineLemmas

section SummaryPipeline

lemma guesses_delta_eq_some (p : PuzzleData) (hb : p.base ≠ []) (hh : p.head ≠ []) :
    guesses_delta p = some (gDeltaD p) := by
  obtain ⟨mb, hmb⟩ := median_guesses_isSome p.base hb
  obtain ⟨mh, hmh⟩ := median_guesses_isSome p.head hh
  have h : guesses_delta p = some (mh - mb) := by simp [guesses_delta, hmb, hmh]
  rw [h, gDeltaD, h, Option.getD_some]

lemma time_delta_eq_some (p : PuzzleData) (hb : p.base ≠ []) (hh : p.head ≠ []) :
    time_delta p = some (tDeltaD p) := by
  obtain ⟨tb, htb⟩ := median_time_isSome p.base hb
  obtain ⟨th, hth⟩ := median_time_isSome p.head hh
  have h : time_delta p = some (th - tb) := by simp [time_delta, htb, hth]
  rw [h, tDeltaD, h, Option.getD_some]

lemma wf_guesses_keys (data : List PuzzleData) (hw : wellformed data) :
    ∀ p ∈ data, guesses_delta p = some (gDeltaD p) :=
  fun p hp => guesses_delta_eq_some p (hw p hp).1 (hw p hp).2

lemma wf_time_keys (data : List PuzzleData) (hw : wellformed data) :
    ∀ p ∈ data, time_delta p = some (tDeltaD p) :=
  fun p hp => time_delta_eq_some p (hw p hp).1 (hw p hp).2

lemma guesses_pipeline (data : List PuzzleData) (hw : wellformed data) :
    ∃ lg, by_guesses data = some lg ∧ lg.Perm data ∧
      lg.Pairwise (fun p q => gDeltaD p ≤ gDeltaD q) ∧
      (∀ v : Int, lg.filter (fun p => decide (gDeltaD p = v)) =
        data.filter (fun p => decide (gDeltaD p = v))) ∧
      best_guesses data =
        some ((lg.take 3).filter (fun p => decide (gDeltaD p < 0))) ∧
      worst_guesses data =
        some (((lg.drop (lg.length - 3)).filter
          (fun p => decide (0 < gDeltaD p))).reverse) := by
  obtain ⟨lg, hsort, hperm, hpw, hfil⟩ :=
    sortByKey_spec guesses_delta gDeltaD data (wf_guesses_keys data hw)
  refine ⟨lg, hsort, hperm, hpw, hfil, ?_, ?_⟩
  · have hmem : ∀ p ∈ lg.take 3,
        (guesses_delta p).map (fun d => decide (d < 0)) =
          some (decide (gDeltaD p < 0)) := by
      intro p hp
      have hpd : p ∈ data := hperm.subset ((List.take_sublist 3 lg).subset hp)
      rw [wf_guesses_keys data hw p hpd]
      rfl
    have hfc := filterComp_eq_filter _ (fun p => decide (gDeltaD p < 0)) _ hmem
    simp [best_guesses, by_guesses, hsort, hfc]
  · have hmem : ∀ p ∈ lg.drop (lg.length - 3),
        (guesses_delta p).map (fun d => decide (0 < d)) =
          some (decide (0 < gDeltaD p)) := by
      intro p hp
      have hpd : p ∈ data := hperm.subset ((List.drop_sublist _ lg).subset hp)
      rw [wf_guesses_keys data hw p hpd]
      rfl
    have hfc := filterComp_eq_filter _ (fun p => decide (0 < gDeltaD p)) _ hmem
    simp [worst_guesses, by_guesses, hsort, hfc]

lemma time_pipeline (data : List PuzzleData) (hw : wellformed data) :
    ∃ lt, by_time data = some lt ∧ lt.Perm data ∧
      lt.Pairwise (fun p q => tDeltaD p ≤ tDeltaD q) ∧
      (∀ v : Int, lt.filter (fun p => decide (tDeltaD p = v)) =
        data.filter (fun p => decide (tDeltaD p = v))) ∧
      best_time data =
        some ((lt.take 3).filter (fun p => decide (tDeltaD p < 0))) ∧
      worst_time data =
        some (((lt.drop (lt.length - 3)).filter
          (fun p => decide (0 < tDeltaD p))).reverse) := by
  obtain ⟨lt, hsort, hperm, hpw, hfil⟩ :=
    sortByKey_spec time_delta tDeltaD data (wf_time_keys data hw)
  refine ⟨lt, hsort, hperm, hpw, hfil, ?_, ?_⟩
  · have hmem : ∀ p ∈ lt.take 3,
        (time_delta p).map (fun d => decide (d < 0)) =
          some (decide (tDeltaD p < 0)) := by
      intro p hp
      have hpd : p ∈ data := hperm.subset ((List.take_sublist 3 lt).subset hp)
      rw [wf_time_keys data hw p hpd]
      rfl
    have hfc := filterComp_eq_filter _ (fun p => decide (tDeltaD p < 0)) _ hmem
    simp [best_time, by_time, hsort, hfc]
  · have hmem : ∀ p ∈ lt.drop (lt.length - 3),
        (time_delta p).map (fun d => decide (0 < d)) =
          some (decide (0 < tDeltaD p)) := by
      intro p hp
      have hpd : p ∈ data := hperm.subset ((List.drop_sublist _ lt).subset hp)
      rw [wf_time_keys data hw p hpd]
      rfl
    have hfc := filterComp_eq_filter _ (fun p => decide (0 < tDeltaD p)) _ hmem
    simp [worst_time, by_time, hsort, hfc]

end SummaryPipeline

/-- C2: for every well-formed input and each metric, the puzzle list is
stably sorted ascending by delta (a permutation of the input, pairwise
ascending, and agreeing with the input order on every equal-delta class);
the
most-improved selection is the first 3 filtered to strictly negative
deltas, the most-regressed selection is the last 3 reversed to descending
order filtered to strictly positive deltas; each selection has at most 3
entries, all with the correct delta sign. -/
theorem top3_selection_claim (data : List PuzzleData) (hw : wellformed data) :
    (∃ lg bestg worstg,
      by_guesses data = some lg ∧ lg.Perm data ∧
      lg.Pairwise (fun p q => gDeltaD p ≤ gDeltaD q) ∧
      (∀ v : Int, lg.filter (fun p => decide (gDeltaD p = v)) =
        data.filter (fun p => decide (gDeltaD p = v))) ∧
      best_guesses data = some bestg ∧
      bestg = (lg.take 3).filter (fun p => decide (gDeltaD p < 0)) ∧
      worst_guesses data = some worstg ∧
      worstg = ((lg.drop (lg.length - 3)).reverse).filter
        (fun p => decide (0 < gDeltaD p)) ∧
      bestg.length ≤ 3 ∧ (∀ p ∈ bestg, gDeltaD p < 0) ∧
      worstg.length ≤ 3 ∧ (∀ p ∈ worstg, 0 < gDeltaD p)) ∧
    (∃ lt bestt worstt,
      by_time data = some lt ∧ lt.Perm data ∧
      lt.Pairwise (fun p q => tDeltaD p ≤ tDeltaD q) ∧
      (∀ v : Int, lt.filter (fun p => decide (tDeltaD p = v)) =
        data.filter (fun p => decide (tDeltaD p = v))) ∧
      best_time data = some bestt ∧
      bestt = (lt.take 3).filter (fun p => decide (tDeltaD p < 0)) ∧
      worst_time data = some worstt ∧
      worstt = ((lt.drop (lt.length - 3)).reverse).filter
        (fun p => decide (0 < tDeltaD p)) ∧
      bestt.length ≤ 3 ∧ (∀ p ∈ bestt, tDeltaD p < 0) ∧
      worstt.length ≤ 3 ∧ (∀ p ∈ worstt, 0 < tDeltaD p)) := by
  constructor
  · obtain ⟨lg, hsort, hperm, hpw, hfil, hbest, hworst⟩ := guesses_pipeline data hw
    have hworst' : worst_guesses data =
        some (((lg.drop (lg.length - 3)).reverse).filter
          (fun p => decide (0 < gDeltaD p))) := by
      rw [List.filter_reverse]
      exact hworst
    refine ⟨lg, _, _, hsort, hperm, hpw, hfil, hbest, rfl, hworst', rfl,
      ?_, ?_, ?_, ?_⟩
    · refine le_trans (List.length_filter_le _ _) ?_
      rw [List.length_take]
      omega
    · intro p hp
      exact of_decide_eq_true (List.mem_filter.mp hp).2
    · refine le_trans (List.length_filter_le _ _) ?_
      rw [List.length_reverse, List.length_drop]
      omega
    · intro p hp
      exact of_decide_eq_true (List.mem_filter.mp hp).2
  · obtain ⟨lt, hsort, hperm, hpw, hfil, hbest, hworst⟩ := time_pipeline data hw
    have hworst' : worst_time data =
        some (((lt.drop (lt.length - 3)).reverse).filter
          (fun p => decide (0 < tDeltaD p))) := by
      rw [List.filter_reverse]
      exact hworst
    refine ⟨lt, _, _, hsort, hperm, hpw, hfil, hbest, rfl, hworst', rfl,
      ?_, ?_, ?_, ?_⟩
    · refine le_trans (List.length_filter_le _ _) ?_
      rw [List.length_take]
      omega
    · intro p hp
      exact of_decide_eq_true (List.mem_filter.mp hp).2
    · refine le_trans (List.length_filter_le _ _) ?_
      rw [List.length_reverse, List.length_drop]
      omega
    · intro p hp
      exact of_decide_eq_true (List.mem_filter.mp hp).2

/-- Witness for C2 at the two-puzzle `sampleData`. -/
theorem top3_selection_claim_witness :
    (∃ lg bestg worstg,
      by_guesses sampleData = some lg ∧ lg.Perm sampleData ∧
      lg.Pairwise (fun p q => gDeltaD p ≤ gDeltaD q) ∧
      (∀ v : Int, lg.filter (fun p => decide (gDeltaD p = v)) =
        sampleData.filter (fun p => decide (gDeltaD p = v))) ∧
      best_guesses sampleData = some bestg ∧
      bestg = (lg.take 3).filter (fun p => decide (gDeltaD p < 0)) ∧
      worst_guesses sampleData = some worstg ∧
      worstg = ((lg.drop (lg.length - 3)).reverse).filter
        (fun p => decide (0 < gDeltaD p)) ∧
      bestg.length ≤ 3 ∧ (∀ p ∈ bestg, gDeltaD p < 0) ∧
      worstg.length ≤ 3 ∧ (∀ p ∈ worstg, 0 < gDeltaD p)) ∧
    (∃ lt bestt worstt,
      by_time sampleData = some lt ∧ lt.Perm sampleData ∧
      lt.Pairwise (fun p q => tDeltaD p ≤ tDeltaD q) ∧
      (∀ v : Int, lt.filter (fun p => decide (tDeltaD p = v)) =
        sampleData.filter (fun p => decide (tDeltaD p = v))) ∧
      best_time sampleData = some bestt ∧
      bestt = (lt.take 3).filter (fun p => decide (tDeltaD p < 0)) ∧
      worst_time sampleData = some worstt ∧
      worstt = ((lt.drop (lt.length - 3)).reverse).filter
        (fun p => decide (0 < tDeltaD p)) ∧
      bestt.length ≤ 3 ∧ (∀ p ∈ bestt, tDeltaD p < 0) ∧
      worstt.length ≤ 3 ∧ (∀ p ∈ worstt, 0 < tDeltaD p)) :=
  top3_selection_claim sampleData (by decide)

section OutputLemmas

lemma link_eq (p : PuzzleData) (hb : p.base ≠ []) :
    puzzle_localhost_link p = some (linkD p) := by
  obtain ⟨b, h⟩ := p
  obtain ⟨r, rest, rfl⟩ := List.exists_cons_of_ne_nil (hb : b ≠ [])
  rfl

lemma guessesRow_eq (p : PuzzleData) (hb : p.base ≠ []) (hh : p.head ≠ []) :
    guessesRow p = some (guessesRowD p) := by
  obtain ⟨mb, hmb⟩ := median_guesses_isSome p.base hb
  obtain ⟨mh, hmh⟩ := median_guesses_isSome p.head hh
  have hl := link_eq p hb
  have hd := guesses_delta_eq_some p hb hh
  simp [guessesRow, guessesRowD, hl, hmb, hmh, hd]

lemma timeRow_eq (p : PuzzleData) (hb : p.base ≠ []) (hh : p.head ≠ []) :
    timeRow p = some (timeRowD p) := by
  obtain ⟨tb, htb⟩ := median_time_isSome p.base hb
  obtain ⟨th, hth⟩ := median_time_isSome p.head hh
  have hl := link_eq p hb
  have hd := time_delta_eq_some p hb hh
  simp [timeRow, timeRowD, hl, htb, hth, hd]

lemma categorySection_eq (sel : List PuzzleData) (emptyMsg caption : String)
    (headings : List String) (row : PuzzleData → Option (List String))
    (rowD : PuzzleData → List String)
    (hrow : ∀ p ∈ sel, row p = some (rowD p))
    (hlen : ∀ p ∈ sel, (rowD p).length = headings.length) :
    ∃ ls, categorySection sel emptyMsg caption headings row = some ls ∧
      (sel = [] → ls = [emptyMsg]) := by
  cases sel with
  | nil => exact ⟨[emptyMsg], rfl, fun _ => rfl⟩
  | cons p0 ps =>
    have hmap := mapComp_eq_map row rowD _ hrow
    have hl0 : headings.length = (rowD p0).length :=
      (hlen p0 (List.mem_cons_self _ _)).symm
    refine ⟨[caption, ""] ++ ([mkRow headings,
      mkRow (List.replicate headings.length "-")]
      ++ ((p0 :: ps).map rowD).map mkRow ++ [""]), ?_, by simp⟩
    simp [categorySection, hmap, print_table_in_markdown, hl0]

end OutputLemmas

/-- C5: on every well-formed input the summary tool produces output, and
for each of the four categories, when no puzzle qualifies the literal
"no puzzles changed" message for that category is among the printed
lines. -/
theorem empty_category_message_claim (data : List PuzzleData)
    (hw : wellformed data) :
    ∃ lines, gensummary_output data = some lines ∧
      (best_guesses data = some [] →
        "**No puzzles decreased in guesses.**" ∈ lines) ∧
      (worst_guesses data = some [] →
        "**No puzzles increased in guesses.**" ∈ lines) ∧
      (best_time data = some [] →
        "**No puzzles decreased in time.**" ∈ lines) ∧
      (worst_time data = some [] →
        "**No puzzles increased in time.**" ∈ lines) := by
  obtain ⟨lg, hsortG, hpermG, _, _, hbestG, hworstG⟩ := guesses_pipeline data hw
  obtain ⟨lt, hsortT, hpermT, _, _, hbestT, hworstT⟩ := time_pipeline data hw
  have hsubBG : ∀ p ∈ (lg.take 3).filter (fun p => decide (gDeltaD p < 0)),
      p ∈ data := fun p hp =>
    hpermG.subset ((List.take_sublist 3 lg).subset
      ((List.filter_sublist _).subset hp))
  have hsubWG : ∀ p ∈ ((lg.drop (lg.length - 3)).filter
      (fun p => decide (0 < gDeltaD p))).reverse, p ∈ data := fun p hp =>
    hpermG.subset ((List.drop_sublist _ lg).subset
      ((List.filter_sublist _).subset (List.mem_reverse.mp hp)))
  have hsubBT : ∀ p ∈ (lt.take 3).filter (fun p => decide (tDeltaD p < 0)),
      p ∈ data := fun p hp =>
    hpermT.subset ((List.take_sublist 3 lt).subset
      ((List.filter_sublist _).subset hp))
  have hsubWT : ∀ p ∈ ((lt.drop (lt.length - 3)).filter
      (fun p => decide (0 < tDeltaD p))).reverse, p ∈ data := fun p hp =>
    hpermT.subset ((List.drop_sublist _ lt).subset
      ((List.filter_sublist _).subset (List.mem_reverse.mp hp)))
  obtain ⟨s1, hs1, hs1e⟩ := categorySection_eq _
    "**No puzzles decreased in guesses.**" "Biggest decrease in guesses:"
    guessesHeadings guessesRow guessesRowD
    (fun p hp => guessesRow_eq p (hw p (hsubBG p hp)).1 (hw p (hsubBG p hp)).2)
    (fun p _ => rfl)
  obtain ⟨s2, hs2, hs2e⟩ := categorySection_eq _
    "**No puzzles increased in guesses.**" "Biggest increase in guesses:"
    guessesHeadings guessesRow guessesRowD
    (fun p hp => guessesRow_eq p (hw p (hsubWG p hp)).1 (hw p (hsubWG p hp)).2)
    (fun p _ => rfl)
  obtain ⟨s3, hs3, hs3e⟩ := categorySection_eq _
    "**No puzzles decreased in time.**" "Biggest decrease in time:"
    timeHeadings timeRow timeRowD
    (fun p hp => timeRow_eq p (hw p (hsubBT p hp)).1 (hw p (hsubBT p hp)).2)
    (fun p _ => rfl)
  obtain ⟨s4, hs4, hs4e⟩ := categorySection_eq _
    "**No puzzles increased in time.**" "Biggest increase in time:"
    timeHeadings timeRow timeRowD
    (fun p hp => timeRow_eq p (hw p (hsubWT p hp)).1 (hw p (hsubWT p hp)).2)
    (fun p _ => rfl)
  refine ⟨["## Guesses summary"] ++ s1 ++ s2 ++ ["## Time summary"] ++ s3 ++ s4,
    ?_, ?_, ?_, ?_, ?_⟩
  · simp [gensummary_output, hbestG, hs1, hworstG, hs2, hbestT, hs3,
      hworstT, hs4]
  · intro hsel
    have he : (lg.take 3).filter (fun p => decide (gDeltaD p < 0)) = [] :=
      Option.some.inj (hbestG.symm.trans hsel)
    have := hs1e he
    simp [this]
  · intro hsel
    have he : ((lg.drop (lg.length - 3)).filter
        (fun p => decide (0 < gDeltaD p))).reverse = [] :=
      Option.some.inj (hworstG.symm.trans hsel)
    have := hs2e he
    simp [this]
  · intro hsel
    have he : (lt.take 3).filter (fun p => decide (tDeltaD p < 0)) = [] :=
      Option.some.inj (hbestT.symm.trans hsel)
    have := hs3e he
    simp [this]
  · intro hsel
    have he : ((lt.drop (lt.length - 3)).filter
        (fun p => decide (0 < tDeltaD p))).reverse = [] :=
      Option.some.inj (hworstT.symm.trans hsel)
    have := hs4e he
    simp [this]

/-- Witness for C5 at `sampleData`, where the best-time category is empty
(no puzzle decreased in time). -/
theorem empty_category_message_claim_witness :
    ∃ lines, gensummary_output sampleData = some lines ∧
      (best_guesses sampleData = some [] →
        "**No puzzles decreased in guesses.**" ∈ lines) ∧
      (worst_guesses sampleData = some [] →
        "**No puzzles increased in guesses.**" ∈ lines) ∧
      (best_time sampleData = some [] →
        "**No puzzles decreased in time.**" ∈ lines) ∧
      (worst_time sampleData = some [] →
        "**No puzzles increased in time.**" ∈ lines) :=
  empty_category_message_claim sampleData (by decide)

section TableLemmas

lemma pipeCount_append (s t : String) :
    pipeCount (s ++ t) = pipeCount s + pipeCount t := by
  simp [pipeCount, String.toList, String.data_append, List.count_append]

lemma pipeCount_pyJoin (cells : List String) (hne : cells ≠ [])
    (h : ∀ c ∈ cells, pipeCount c = 0) :
    pipeCount (pyJoin "|" cells) = cells.length - 1 := by
  induction cells with
  | nil => exact absurd rfl hne
  | cons c cs ih =>
    cases cs with
    | nil => simp [pyJoin, h c (List.mem_cons_self _ _)]
    | cons c2 cs2 =>
      have h2 := ih (by simp) (fun x hx => h x (List.mem_cons_of_mem _ hx))
      have hc := h c (List.mem_cons_self _ _)
      rw [pyJoin, pipeCount_append, pipeCount_append, hc, h2]
      have hp : pipeCount "|" = 1 := rfl
      rw [hp]
      simp
      omega

lemma pipeCount_mkRow (cells : List String) (hne : cells ≠ [])
    (h : ∀ c ∈ cells, pipeCount c = 0) :
    pipeCount (mkRow cells) = cells.length + 1 := by
  have hlen : 0 < cells.length := List.length_pos.mpr hne
  rw [mkRow, pipeCount_append, pipeCount_append,
    pipeCount_pyJoin cells hne h]
  have hp : pipeCount "|" = 1 := rfl
  rw [hp]
  omega

end TableLemmas

/-- C4 counterexample: at `headings = ["a|b"]`, `data = [["x|y"]]` (one row)
the output has 4 printed lines, not `rows + 2 = 3`, and its first line
contains 3 pipes, not `len(headings) + 1 = 2` (cell content pipes are not
escaped, and the function prints a trailing blank line). At empty headings
(`headings = []`, `data = [[]]`) every line has 2 pipes, not
`len(headings) + 1 = 1`. -/
theorem markdown_table_shape_counterexample :
    print_table_in_markdown ["a|b"] [["x|y"]] =
      some ["|a|b|", "|-|", "|x|y|", ""] ∧
    ¬ ((["|a|b|", "|-|", "|x|y|", ""] : List String).length = 1 + 2 ∧
      ∀ s ∈ (["|a|b|", "|-|", "|x|y|", ""] : List String),
        pipeCount s = 1 + 1) ∧
    print_table_in_markdown [] [[]] = some ["||", "||", "||", ""] ∧
    pipeCount "||" ≠ 0 + 1 := by
  refine ⟨by decide, by decide, by decide, by decide⟩

/-- C4 (amended): for a non-empty rectangular grid whose rows have the
same length as a non-empty headings list, with no pipe character inside
any heading or cell, the output is `rows + 3` printed lines: a body of
`rows + 2` table lines each containing exactly `len(headings) + 1` pipes,
followed by one trailing empty line. -/
theorem markdown_table_shape_claim (headings : List String)
    (data : List (List String)) (hne : data ≠ []) (hhne : headings ≠ [])
    (hrect : ∀ row ∈ data, row.length = headings.length)
    (hhp : ∀ c ∈ headings, pipeCount c = 0)
    (hcp : ∀ row ∈ data, ∀ c ∈ row, pipeCount c = 0) :
    ∃ body, print_table_in_markdown headings data = some (body ++ [""]) ∧
      (body ++ [""]).length = data.length + 3 ∧
      body.length = data.length + 2 ∧
      ∀ s ∈ body, pipeCount s = headings.length + 1 := by
  cases data with
  | nil => exact absurd rfl hne
  | cons row0 rows =>
    have h0 : headings.length = row0.length :=
      (hrect row0 (List.mem_cons_self _ _)).symm
    refine ⟨[mkRow headings, mkRow (List.replicate headings.length "-")]
      ++ (row0 :: rows).map mkRow, ?_, ?_, ?_, ?_⟩
    · simp [print_table_in_markdown, h0]
    · simp
    · simp
    · intro s hs
      simp only [List.mem_append, List.mem_cons, List.mem_map,
        List.mem_singleton] at hs
      rcases hs with (rfl | rfl | h) | ⟨row, hrow, rfl⟩
      · exact pipeCount_mkRow headings hhne hhp
      · rw [pipeCount_mkRow _ ?_ ?_, List.length_replicate]
        · intro habs
          have h1 : headings.length = 0 := by
            have h2 := congrArg List.length habs
            simpa using h2
          exact hhne (List.length_eq_zero.mp h1)
        · intro c hc
          rw [(List.mem_replicate.mp hc).2]
          rfl
      · exact absurd h (by simp)
      · have hm : row ∈ row0 :: rows := List.mem_cons.mpr hrow
        have hr : row ≠ [] := by
          intro habs
          have h1 := hrect row hm
          rw [habs] at h1
          simp at h1
          have h2 : headings.length = 0 := by omega
          exact hhne (List.length_eq_zero.mp h2)
        rw [pipeCount_mkRow row hr (hcp row hm), hrect row hm]

/-- Witness for C4 at a 2-heading, 2-row pipe-free table. -/
theorem markdown_table_shape_claim_witness :
    ∃ body, print_table_in_markdown ["h1", "h2"] [["a", "b"], ["c", "d"]] =
      some (body ++ [""]) ∧
      (body ++ [""]).length = 2 + 3 ∧
      body.length = 2 + 2 ∧
      ∀ s ∈ body, pipeCount s = 2 + 1 :=
  markdown_table_shape_claim ["h1", "h2"] [["a", "b"], ["c", "d"]]
    (by decide) (by decide) (by decide) (by decide) (by decide)

section GraphLemmas

lemma flatten_map_length_const {γ : Type} (g : PuzzleData → List γ)
    (data : List PuzzleData) (M : Nat) (h : ∀ p ∈ data, (g p).length = M) :
    ((data.map g).flatten).length = data.length * M := by
  induction data with
  | nil => simp
  | cons p ps ih =>
    have hp := h p (List.mem_cons_self _ _)
    have hps := ih (fun q hq => h q (List.mem_cons_of_mem _ hq))
    simp [hp, hps]
    ring

lemma index_mapComp (mapper : RunData → Int) (data : List PuzzleData) :
    ∃ idx, mapComp median
        ((data.map (fun p => p.base.map (fun _ => p.base.map mapper))).flatten) =
        some idx ∧
      idx.length = (baseStream mapper data).length := by
  have hsome : ∀ xs ∈ (data.map
      (fun p => p.base.map (fun _ => p.base.map mapper))).flatten,
      ∃ v, median xs = some v := by
    intro xs hxs
    rw [List.mem_flatten] at hxs
    obtain ⟨l, hl, hxl⟩ := hxs
    rw [List.mem_map] at hl
    obtain ⟨p, _, rfl⟩ := hl
    rw [List.mem_map] at hxl
    obtain ⟨r, hr, rfl⟩ := hxl
    apply median_isSome
    simp [List.ne_nil_of_mem hr]
  obtain ⟨idx, hidx, hlen⟩ := mapComp_isSome _ _ hsome
  refine ⟨idx, hidx, ?_⟩
  have hsame : ∀ ds : List PuzzleData,
      ((ds.map (fun p => p.base.map (fun _ => p.base.map mapper))).flatten).length =
        ((ds.map (fun p => p.base.map mapper)).flatten).length := by
    intro ds
    induction ds with
    | nil => rfl
    | cons p ps ih =>
      simp only [List.map_cons, List.flatten_cons, List.length_append,
        List.length_map, ih]
  rw [hlen, baseStream, hsame data]

end GraphLemmas

/-- C8: for N puzzles each with exactly M runs on both sides, the
`compare_data` of the combined-stream graph tool has exactly N·M rows; the
per-puzzle-median variant (modelled from the spec, see
`compare_data_by_puzzle`) has exactly N rows. -/
theorem compare_data_rows_claim (mapper : RunData → Int)
    (data : List PuzzleData) (M : Nat)
    (hM : ∀ p ∈ data, p.base.length = M ∧ p.head.length = M) :
    (∃ df, compare_data mapper data = some df ∧
      df.rows.length = data.length * M) ∧
    (1 ≤ M → ∃ rs, compare_data_by_puzzle mapper data = some rs ∧
      rs.length = data.length) := by
  have hbase : (baseStream mapper data).length = data.length * M :=
    flatten_map_length_const _ _ _
      (fun p hp => by rw [List.length_map]; exact (hM p hp).1)
  have hhead : (headStream mapper data).length = data.length * M :=
    flatten_map_length_const _ _ _
      (fun p hp => by rw [List.length_map]; exact (hM p hp).2)
  obtain ⟨idx, hidx, hlen⟩ := index_mapComp mapper data
  constructor
  · by_cases hrows : (baseStream mapper data).zip (headStream mapper data) = []
    · refine ⟨CompareFrame.mk (idx.map (fun _ => (none, none))) idx, ?_, ?_⟩
      · simp only [compare_data]
        rw [hidx]
        exact if_pos hrows
      · rw [List.length_map, hlen, hbase]
    · have hcond : ((baseStream mapper data).zip
          (headStream mapper data)).length = idx.length := by
        rw [List.length_zip, hlen, hbase, hhead]
        simp
      refine ⟨CompareFrame.mk
        (((baseStream mapper data).zip (headStream mapper data)).map
          (fun r => (some r.1, some r.2))) idx, ?_, ?_⟩
      · simp only [compare_data]
        rw [hidx]
        exact (if_neg hrows).trans (if_pos hcond)
      · rw [List.length_map, List.length_zip, hbase, hhead]
        simp
  · intro hM1
    have hsome : ∀ p ∈ data, ∃ v,
        (do
          let b ← median (p.base.map mapper)
          let h ← median (p.head.map mapper)
          pure (b, h) : Option (Int × Int)) = some v := by
      intro p hp
      have hb : p.base ≠ [] := by
        intro habs
        have := (hM p hp).1
        rw [habs] at this
        simp at this
        omega
      have hh : p.head ≠ [] := by
        intro habs
        have := (hM p hp).2
        rw [habs] at this
        simp at this
        omega
      obtain ⟨vb, hvb⟩ := median_isSome (p.base.map mapper) (by simpa using hb)
      obtain ⟨vh, hvh⟩ := median_isSome (p.head.map mapper) (by simpa using hh)
      exact ⟨(vb, vh), by simp [hvb, hvh]⟩
    obtain ⟨rs, hrs, hlen2⟩ := mapComp_isSome _ _ hsome
    exact ⟨rs, hrs, hlen2⟩

/-- Witness for C8 at one puzzle with one run per side. -/
theorem compare_data_rows_claim_witness :
    (∃ df, compare_data (fun r => r.guesses)
        [([sampleRun 5 10 20], [sampleRun 3 10 20])] = some df ∧
      df.rows.length = 1 * 1) ∧
    (1 ≤ 1 → ∃ rs, compare_data_by_puzzle (fun r => r.guesses)
        [([sampleRun 5 10 20], [sampleRun 3 10 20])] = some rs ∧
      rs.length = 1) :=
  compare_data_rows_claim (fun r => r.guesses)
    [([sampleRun 5 10 20], [sampleRun 3 10 20])] 1 (by decide)

/-- C9 counterexample: with 2 base runs and 1 head run in total, the claim
says `compare_data` silently has `min(2, 1) = 1` row; in fact the
`DataFrame` constructor raises a shape error (the index has one entry per
base run, length 2, but the zipped data has 1 row), embedded as `none`. -/
theorem compare_data_truncation_counterexample :
    (baseStream (fun r => r.guesses)
      [([sampleRun 5 10 20, sampleRun 6 10 20], [sampleRun 3 10 20])]).length
        = 2 ∧
    (headStream (fun r => r.guesses)
      [([sampleRun 5 10 20, sampleRun 6 10 20], [sampleRun 3 10 20])]).length
        = 1 ∧
    compare_data (fun r => r.guesses)
      [([sampleRun 5 10 20, sampleRun 6 10 20], [sampleRun 3 10 20])] =
      none := by
  refine ⟨by decide, by decide, by decide⟩

/-- C9 (amended): when the total number of base runs B is at most the
total number of head runs H, `compare_data` silently has exactly
`min(B, H) = B` rows, pairing the two per-run streams positionally (the
zip truncates the head stream); when 0 < H < B the pandas `DataFrame`
constructor raises a shape error (index length B vs data length H), so
the tool fails instead of truncating; when H = 0 < B the zip is empty and
the empty-data special case of the constructor builds a NaN-filled frame
with one row per index entry, B rows rather than `min(B, H) = 0`. -/
theorem compare_data_truncation_claim (mapper : RunData → Int)
    (data : List PuzzleData) :
    ((baseStream mapper data).length ≤ (headStream mapper data).length →
      ∃ df, compare_data mapper data = some df ∧
        df.rows = ((baseStream mapper data).zip
          (headStream mapper data)).map (fun r => (some r.1, some r.2)) ∧
        df.rows.length =
          min (baseStream mapper data).length
            (headStream mapper data).length) ∧
    (0 < (headStream mapper data).length →
      (headStream mapper data).length < (baseStream mapper data).length →
      compare_data mapper data = none) ∧
    ((headStream mapper data).length = 0 →
      0 < (baseStream mapper data).length →
      ∃ df, compare_data mapper data = some df ∧
        df.rows.length = (baseStream mapper data).length ∧
        ∀ r ∈ df.rows, r = (none, none)) := by
  obtain ⟨idx, hidx, hlen⟩ := index_mapComp mapper data
  refine ⟨?_, ?_, ?_⟩
  · intro hle
    by_cases hrows : (baseStream mapper data).zip (headStream mapper data) = []
    · have hzl : ((baseStream mapper data).zip
          (headStream mapper data)).length = 0 := by
        rw [hrows]
        rfl
      have hB : (baseStream mapper data).length = 0 := by
        rw [List.length_zip] at hzl
        omega
      have hidxnil : idx = [] := List.length_eq_zero.mp (by rw [hlen, hB])
      refine ⟨CompareFrame.mk (idx.map (fun _ => (none, none))) idx,
        ?_, ?_, ?_⟩
      · simp only [compare_data]
        rw [hidx]
        exact if_pos hrows
      · rw [hidxnil, hrows]
        rfl
      · rw [List.length_map, hlen]
        omega
    · have hcond : ((baseStream mapper data).zip
          (headStream mapper data)).length = idx.length := by
        rw [List.length_zip, hlen]
        omega
      refine ⟨CompareFrame.mk (((baseStream mapper data).zip
          (headStream mapper data)).map (fun r => (some r.1, some r.2))) idx,
        ?_, rfl, ?_⟩
      · simp only [compare_data]
        rw [hidx]
        exact (if_neg hrows).trans (if_pos hcond)
      · rw [List.length_map, List.length_zip]
  · intro hpos hlt
    have hrows : ¬ (baseStream mapper data).zip (headStream mapper data) = [] := by
      intro habs
      have hzl : ((baseStream mapper data).zip
          (headStream mapper data)).length = 0 := by
        rw [habs]
        rfl
      rw [List.length_zip] at hzl
      omega
    have hcond : ¬ ((baseStream mapper data).zip
        (headStream mapper data)).length = idx.length := by
      rw [List.length_zip, hlen]
      omega
    simp only [compare_data]
    rw [hidx]
    exact (if_neg hrows).trans (if_neg hcond)
  · intro hH hB
    have hrows : (baseStream mapper data).zip (headStream mapper data) = [] := by
      apply List.length_eq_zero.mp
      rw [List.length_zip, hH]
      simp
    refine ⟨CompareFrame.mk (idx.map (fun _ => (none, none))) idx, ?_, ?_, ?_⟩
    · simp only [compare_data]
      rw [hidx]
      exact if_pos hrows
    · rw [List.length_map, hlen]
    · intro r hr
      obtain ⟨a, _, ha⟩ := List.mem_map.mp hr
      exact ha.symm

/-- Witness for C9: a puzzle with 1 base and 2 head runs (B ≤ H,
truncation to 1 row), a puzzle with 2 base and 1 head runs (0 < H < B,
constructor failure), and a puzzle with 2 base and 0 head runs
(H = 0 < B, a NaN-filled 2-row frame). -/
theorem compare_data_truncation_claim_witness :
    (∃ df, compare_data (fun r => r.guesses)
        [([sampleRun 5 10 20], [sampleRun 3 10 20, sampleRun 4 10 20])] =
        some df ∧
      df.rows = ((baseStream (fun r => r.guesses)
          [([sampleRun 5 10 20], [sampleRun 3 10 20, sampleRun 4 10 20])]).zip
        (headStream (fun r => r.guesses)
          [([sampleRun 5 10 20], [sampleRun 3 10 20, sampleRun 4 10 20])])).map
          (fun r => (some r.1, some r.2)) ∧
      df.rows.length =
        min (baseStream (fun r => r.guesses)
            [([sampleRun 5 10 20], [sampleRun 3 10 20, sampleRun 4 10 20])]).length
          (headStream (fun r => r.guesses)
            [([sampleRun 5 10 20], [sampleRun 3 10 20, sampleRun 4 10 20])]).length) ∧
    compare_data (fun r => r.guesses)
      [([sampleRun 5 10 20, sampleRun 6 10 20], [sampleRun 3 10 20])] = none ∧
    (∃ df, compare_data (fun r => r.guesses)
        [([sampleRun 5 10 20, sampleRun 6 10 20], [])] = some df ∧
      df.rows.length = (baseStream (fun r => r.guesses)
        [([sampleRun 5 10 20, sampleRun 6 10 20], [])]).length ∧
      ∀ r ∈ df.rows, r = (none, none)) :=
  ⟨(compare_data_truncation_claim (fun r => r.guesses)
      [([sampleRun 5 10 20], [sampleRun 3 10 20, sampleRun 4 10 20])]).1
    (by decide),
   (compare_data_truncation_claim (fun r => r.guesses)
      [([sampleRun 5 10 20, sampleRun 6 10 20], [sampleRun 3 10 20])]).2.1
    (by decide) (by decide),
   (compare_data_truncation_claim (fun r => r.guesses)
      [([sampleRun 5 10 20, sampleRun 6 10 20], [])]).2.2
    (by decide) (by decide)⟩
